import Mathlib

/-!
Shallow embedding of the llmailbot / jbmailbot mail pipeline:
the email data model (src/llmailbot/email/model.py and
src/jbmailbot/email/model.py), the security filter
(src/llmailbot/security.py), the mail-fetch step
(src/llmailbot/email/fetch.py), the bot reply loop
(src/jbmailbot/mailbot.py), the queue wrappers
(src/llmailbot/queue.py and src/jbmailbot/mailqueue.py) and the
interval scheduling of the task runner (src/jbmailbot/runtask.py).

Timestamps (Python datetime / time.time values) are modelled as
rationals; the algorithms only add durations and compare instants, so
nothing is lost.  Python str.lstrip strips the same ASCII whitespace
as String.trimLeft on the inputs considered here.  A Python dict is
modelled as an insertion-ordered association list, which matches
CPython dict iteration order and insertion-at-the-end semantics.
-/

abbrev Time := ℚ

/-- Email address, after imap_tools EmailAddress (a name, email pair). -/
structure EmailAddress where
  name : String
  email : String
deriving DecidableEq

/-- Embeds imap_tools EmailAddress.full. -/
def EmailAddress.full (a : EmailAddress) : String :=
  if a.name = "" then a.email else a.name ++ " <" ++ a.email ++ ">"

/-- Embeds llmailbot.email.model.SimpleEmail (dataclass fields; the
parsed_message and raw_message_data fields carry raw parsed data and
are not needed by any claim, so they are omitted; sent_at is carried as
its rendered date string since only its presence matters). -/
structure SimpleEmail where
  addr_from : EmailAddress
  addr_to : List EmailAddress
  subject : String
  body : String
  sent_at : Option String := none
  message_uid : Option String := none
  message_id : Option String := none
  in_reply_to : Option String := none
  references : Option String := none
deriving DecidableEq

/-- Embeds llmailbot.email.model.SimpleEmail.reply: the subject is
always the original subject with the fixed reply marker prepended. -/
def SimpleEmail.reply (email : SimpleEmail) (addr_from : EmailAddress) (body : String) :
    SimpleEmail :=
  { addr_from := addr_from
    addr_to := [email.addr_from]
    subject := "Re: " ++ email.subject
    body := body
    in_reply_to := email.message_id
    references := email.references }

/-- Result of SimpleEmail.to_email_message: the ordered header list of
the built RFC-5322 message plus its text content. -/
structure EmailMessageModel where
  headers : List (String × Option String)
  content : String
deriving DecidableEq

/-- Embeds llmailbot.email.model.SimpleEmail.to_email_message.  The
argument now stands for the rendered datetime.now() fallback used when
sent_at is absent. -/
def SimpleEmail.to_email_message (e : SimpleEmail) (now : String) : EmailMessageModel :=
  { headers :=
      [("From", some e.addr_from.full),
       ("To", some (String.intercalate ", " (e.addr_to.map EmailAddress.full))),
       ("Subject", some e.subject),
       ("Date", some (e.sent_at.getD now)),
       ("In-Reply-To", e.in_reply_to)]
    content := e.body }

/-- Embeds jbmailbot.email.model.SimpleEmail (addresses are plain
strings there; the attachments mapping is not needed by any claim). -/
structure SimpleEmailJB where
  addr_from : String
  addr_to : List String
  subject : String
  body : String
  sent_at : Option String := none
  message_uid : Option String := none
  message_id : Option String := none
  in_reply_to : Option String := none
  references : Option String := none
deriving DecidableEq

/-- Embeds jbmailbot.email.model.SimpleEmail.reply: the subject is the
original subject, unchanged. -/
def SimpleEmailJB.reply (email : SimpleEmailJB) (addr_from : String) (body : String) :
    SimpleEmailJB :=
  { addr_from := addr_from
    addr_to := [email.addr_from]
    subject := email.subject
    body := body
    in_reply_to := email.message_id
    references := email.references }

/-- Embeds llmailbot.security.Action (named SecAction because Mathlib
already declares a global Action). -/
inductive SecAction where
  | BLOCK
  | ALLOW
deriving DecidableEq

/-- Embeds llmailbot.security.RuleResult. -/
structure RuleResult where
  action : SecAction
  reason : Option String
deriving DecidableEq

/-- Embeds Python str.lstrip with its default argument: drop leading
whitespace characters (structurally on the character list, which is
what CPython does over code points). -/
def pyLstrip (s : String) : String :=
  ⟨List.dropWhile Char.isWhitespace s.data⟩

/-- Embeds Python str.startswith on code points. -/
def pyStartsWith (s pre : String) : Bool :=
  pre.data.isPrefixOf s.data

/-- Embeds the Python slice s[n:] on code points. -/
def pySliceFrom (s : String) (n : ℕ) : String :=
  ⟨s.data.drop n⟩

/-- Embeds llmailbot.security.SecretKeyRule.check.  Note that the
startswith test is made on the left-stripped body, while the slice that
mutates the body drops the first characters of the original, unstripped
body. -/
def SecretKeyRule.check (key : String) (email : SimpleEmail) : RuleResult × SimpleEmail :=
  let body := pyLstrip email.body
  if pyStartsWith body key then
    (⟨SecAction.ALLOW, none⟩, { email with body := pyLstrip (pySliceFrom email.body key.length) })
  else
    (⟨SecAction.BLOCK, some "secret key check failed"⟩, email)

/-- Embeds llmailbot.config.FilterMode. -/
inductive FilterMode where
  | ALLOWLIST
  | DENYLIST
deriving DecidableEq

/-- Python addr.split at the first commercial-at sign, as used for
addresses that are known to contain one. -/
def splitAtSign (s : String) : String × String :=
  (s.takeWhile (fun ch => ch ≠ '@'), ((s.dropWhile (fun ch => ch ≠ '@')).drop 1))

/-- Embeds llmailbot.security.FilterSenderRule (the address and domain
sets are kept as lists; only membership is used). -/
structure FilterSenderRule where
  mode : FilterMode
  addresses : List String
  domains : List String
deriving DecidableEq

/-- Embeds the FilterSenderRule constructor loop over configured
entries: a wildcard local part files the domain, anything else files
the full address. -/
def FilterSenderRule.init (mode : FilterMode) (entries : List String) : FilterSenderRule :=
  entries.foldl
    (fun r addr =>
      let (nm, dom) := splitAtSign addr
      if nm = "*" then { r with domains := r.domains ++ [dom] }
      else { r with addresses := r.addresses ++ [addr] })
    ⟨mode, [], []⟩

/-- Embeds FilterSenderRule.is_in_list. -/
def FilterSenderRule.is_in_list (r : FilterSenderRule) (addr : String) : Bool :=
  let dom := (splitAtSign addr).2
  r.domains.contains dom || r.addresses.contains addr

/-- Embeds FilterSenderRule.check. -/
def FilterSenderRule.check (r : FilterSenderRule) (email : SimpleEmail) : RuleResult :=
  let sender := email.addr_from.email
  let sender_in_list := r.is_in_list sender
  if r.mode = FilterMode.DENYLIST ∧ sender_in_list then
    ⟨SecAction.BLOCK, some (sender ++ " is in deny list")⟩
  else if r.mode = FilterMode.ALLOWLIST ∧ ¬sender_in_list then
    ⟨SecAction.BLOCK, some (sender ++ " is not in allow list")⟩
  else
    ⟨SecAction.ALLOW, none⟩

/-- Embeds llmailbot.security.RateLimitRule state: window duration,
limit, running count and window expiry (the numeric rendering inside
the log reason string is not modelled). -/
structure RateLimitRule where
  duration : Time
  limit : Int
  count : Int
  limit_expiry : Time
  name : String
deriving DecidableEq

/-- Embeds RateLimitRule.__init__ called at instant now. -/
def RateLimitRule.init (duration : Time) (limit : Int) (name : String) (now : Time) :
    RateLimitRule :=
  ⟨duration, limit, 0, now + duration, name⟩

/-- Embeds RateLimitRule._is_expired. -/
def RateLimitRule.is_expired (r : RateLimitRule) (now : Time) : Bool :=
  decide (now > r.limit_expiry)

/-- Embeds RateLimitRule._reset. -/
def RateLimitRule.reset (r : RateLimitRule) (now : Time) : RateLimitRule :=
  { r with count := 0, limit_expiry := now + r.duration }

/-- Embeds RateLimitRule._increase_and_check at instant now. -/
def RateLimitRule.increase_and_check (r : RateLimitRule) (now : Time) :
    RuleResult × RateLimitRule :=
  let r1 := if r.is_expired now then r.reset now else r
  let r2 := { r1 with count := r1.count + 1 }
  if r2.count > r2.limit then
    (⟨SecAction.BLOCK, some ("rate limit exceeded - " ++ r2.name)⟩, r2)
  else
    (⟨SecAction.ALLOW, none⟩, r2)

/-- Embeds llmailbot.security.RateLimitPerSenderRule state: the
rate_limits dict as an insertion-ordered association list, plus the
next purge instant. -/
structure RateLimitPerSenderRule where
  duration : Time
  limit : Int
  rate_limits : List (String × RateLimitRule)
  next_purge : Time
  name : String
deriving DecidableEq

/-- Embeds RateLimitPerSenderRule.__init__ called at instant now. -/
def RateLimitPerSenderRule.init (duration : Time) (limit : Int) (name : String) (now : Time) :
    RateLimitPerSenderRule :=
  ⟨duration, limit, [], now + duration, name⟩

/-- Embeds RateLimitPerSenderRule._purge under CPython iterator
semantics: the for loop walks the dict items in insertion order; a del
of the current item makes the very next iterator advance raise
RuntimeError (dictionary changed size during iteration).  Returns the
entry list left in the dict and whether the RuntimeError was raised:
on a raise, exactly the first expired entry has been deleted and every
entry after it is untouched. -/
def purgeEntries (now : Time) : List (String × RateLimitRule) →
    List (String × RateLimitRule) × Bool
  | [] => ([], false)
  | e :: rest =>
      if e.2.is_expired now then (rest, true)
      else
        let (kept, raised) := purgeEntries now rest
        (e :: kept, raised)

/-- Python dict lookup on the association-list model. -/
def lookupEntry (key : String) (entries : List (String × RateLimitRule)) :
    Option RateLimitRule :=
  (entries.find? (fun p => p.1 == key)).map Prod.snd

/-- Python in-place mutation of one dict value on the association-list
model (the position of the key is unchanged). -/
def updateEntry (key : String) (f : RateLimitRule → RateLimitRule) :
    List (String × RateLimitRule) → List (String × RateLimitRule)
  | [] => []
  | e :: rest =>
      if e.1 == key then (e.1, f e.2) :: rest
      else e :: updateEntry key f rest

/-- Embeds RateLimitPerSenderRule._increase_and_check at instant now
(the source reads the clock a few microseconds apart inside one check;
the model uses one instant per check).  The error side carries the
Python exception text together with the state left behind when the
exception propagates. -/
def RateLimitPerSenderRule.increase_and_check (r : RateLimitPerSenderRule) (key : String)
    (now : Time) : Except (String × RateLimitPerSenderRule) (RuleResult × RateLimitPerSenderRule) :=
  let entries :=
    match lookupEntry key r.rate_limits with
    | some rl =>
        if rl.is_expired now then updateEntry key (fun rl => rl.reset now) r.rate_limits
        else r.rate_limits
    | none =>
        r.rate_limits ++
          [(key, RateLimitRule.init r.duration r.limit (r.name ++ "/" ++ key) now)]
  match
    (if decide (now > r.next_purge) then
      let (entries2, raised) := purgeEntries now entries
      if raised then
        Except.error ("RuntimeError: dictionary changed size during iteration",
          { r with rate_limits := entries2 })
      else
        Except.ok { r with rate_limits := entries2, next_purge := now + r.duration }
    else
      Except.ok { r with rate_limits := entries }) with
  | Except.error e => Except.error e
  | Except.ok st =>
      match lookupEntry key st.rate_limits with
      | none => Except.error ("KeyError", st)
      | some rl =>
          let (res, rl2) := rl.increase_and_check now
          Except.ok (res, { st with rate_limits := updateEntry key (fun _ => rl2) st.rate_limits })

/-- Embeds the security rules of llmailbot.security as one tagged type,
each carrying its mutable state (RateLimitPerDomainRule shares the
per-sender implementation, keyed by the domain part of the sender). -/
inductive SecRule where
  | allowAll
  | secretKey (key : String)
  | filterSender (r : FilterSenderRule)
  | rateLimit (r : RateLimitRule)
  | rateLimitPerSender (r : RateLimitPerSenderRule)
  | rateLimitPerDomain (r : RateLimitPerSenderRule)
deriving DecidableEq

/-- Embeds Rule.check dispatch: the result, the possibly mutated email
and the updated rule state; a rate-limit purge failure propagates as an
error with the Python exception text. -/
def SecRule.check (rule : SecRule) (email : SimpleEmail) (now : Time) :
    Except String (RuleResult × SimpleEmail × SecRule) :=
  match rule with
  | SecRule.allowAll => Except.ok (⟨SecAction.ALLOW, none⟩, email, SecRule.allowAll)
  | SecRule.secretKey key =>
      let (res, email2) := SecretKeyRule.check key email
      Except.ok (res, email2, SecRule.secretKey key)
  | SecRule.filterSender r => Except.ok (r.check email, email, SecRule.filterSender r)
  | SecRule.rateLimit r =>
      let (res, r2) := r.increase_and_check now
      Except.ok (res, email, SecRule.rateLimit r2)
  | SecRule.rateLimitPerSender r =>
      match r.increase_and_check email.addr_from.email now with
      | Except.error (msg, _) => Except.error msg
      | Except.ok (res, r2) => Except.ok (res, email, SecRule.rateLimitPerSender r2)
  | SecRule.rateLimitPerDomain r =>
      match r.increase_and_check (splitAtSign email.addr_from.email).2 now with
      | Except.error (msg, _) => Except.error msg
      | Except.ok (res, r2) => Except.ok (res, email, SecRule.rateLimitPerDomain r2)

/-- Embeds SecurityFilter.apply over the ordered rule list: rules run
in order on the (possibly mutated) email; the first BLOCK
short-circuits and yields none; if every rule allows, the mutated email
is returned.  The updated rule states are threaded back so that checks
on later emails observe them; a rule exception terminates the filter
(and the fetch step) with that error. -/
def SecurityFilter.apply (rules : List SecRule) (email : SimpleEmail) (now : Time) :
    Except String (Option SimpleEmail × List SecRule) :=
  match rules with
  | [] => Except.ok (some email, [])
  | rule :: rest =>
      match rule.check email now with
      | Except.error msg => Except.error msg
      | Except.ok (res, email2, rule2) =>
          if res.action = SecAction.BLOCK then Except.ok (none, rule2 :: rest)
          else
            match SecurityFilter.apply rest email2 now with
            | Except.error msg => Except.error msg
            | Except.ok (out, rest2) => Except.ok (out, rule2 :: rest2)

/-- Embeds llmailbot.email.model.IMAPRawMessage for the purpose of the
fetch loop: the raw message together with what parsing it yields. -/
structure IMAPRawMessage where
  parsed : SimpleEmail
deriving DecidableEq

/-- Python equality of the value returned by SecurityFilter.apply (a
SimpleEmail object or None) with the enum member Action.ALLOW, as
written in FetchMailTask.run.  SimpleEmail is a dataclass, whose
generated eq returns NotImplemented for an operand of another class;
None has no custom eq; enum members compare by identity.  The
comparison is therefore False for every operand. -/
def pyEqApplyResultAllow (result : Option SimpleEmail) : Bool :=
  match result with
  | none => false
  | some _ => false

/-- Embeds the body of the for loop of FetchMailTask.run over the
fetched messages: each raw message is parsed, and, when a filter is
configured, put on the incoming queue when the apply result compares
equal to Action.ALLOW under Python equality.  Returns the enqueued raw
messages and the filter state, or the propagated rule exception. -/
def fetchLoop (rules : List SecRule) (now : Time) :
    List IMAPRawMessage → Except String (List IMAPRawMessage × List SecRule)
  | [] => Except.ok ([], rules)
  | m :: rest =>
      match SecurityFilter.apply rules m.parsed now with
      | Except.error msg => Except.error msg
      | Except.ok (result, rules2) =>
          match fetchLoop rules2 now rest with
          | Except.error msg => Except.error msg
          | Except.ok (enqueued, rules3) =>
              Except.ok ((if pyEqApplyResultAllow result then [m] else []) ++ enqueued, rules3)

/-- Embeds FetchMailTask.run for one step: with no configured filter
the put statement is inside the if on self.sec_filter, so nothing is
enqueued; with a filter, the loop above runs. -/
def FetchMailTask.run (sec_filter : Option (List SecRule)) (msgs : List IMAPRawMessage)
    (now : Time) : Except String (List IMAPRawMessage × Option (List SecRule)) :=
  match sec_filter with
  | none => Except.ok ([], none)
  | some rules =>
      match fetchLoop rules now msgs with
      | Except.error msg => Except.error msg
      | Except.ok (enqueued, rules2) => Except.ok (enqueued, some rules2)

/-- Messages enqueued by a fetch step (none when the step raised). -/
def fetchEnqueued (r : Except String (List IMAPRawMessage × Option (List SecRule))) :
    List IMAPRawMessage :=
  match r with
  | Except.error _ => []
  | Except.ok (enqueued, _) => enqueued

/-- Model of Python queue.Queue state: the configured maxsize (any
value at most zero means unbounded, as in the stdlib) and the queued
items, head first. -/
structure PyQueue (α : Type) where
  maxsize : Int
  items : List α
deriving DecidableEq

/-- Embeds queue.Queue.put with block and timeout on a queue whose
state does not change during the wait: when the capacity is finite and
the queue is full, the put does not complete (a Full exception after
the timeout, or an indefinite block when no timeout is given);
otherwise the item is appended at the tail. -/
def PyQueue.put_raw {α : Type} (q : PyQueue α) (x : α) : Except Unit (PyQueue α) :=
  if 0 < q.maxsize ∧ q.maxsize ≤ (q.items.length : Int) then Except.error ()
  else Except.ok { q with items := q.items ++ [x] }

/-- Embeds queue.Queue.get with block and timeout on a queue whose
state does not change during the wait: on an empty queue the Empty
exception is raised once the timeout elapses (or immediately when not
blocking); otherwise the head is removed and returned. -/
def PyQueue.get_raw {α : Type} (q : PyQueue α) : Except Unit (α × PyQueue α) :=
  match q.items with
  | [] => Except.error ()
  | x :: rest => Except.ok (x, { q with items := rest })

/-- Embeds llmailbot.queue.MemoryQueue.__init__: the maxsize is passed
through to queue.Queue. -/
def MemoryQueue.init (α : Type) (maxsize : Int) : PyQueue α :=
  ⟨maxsize, []⟩

/-- Embeds llmailbot.queue.ManagedMemoryQueue.__init__: the maxsize is
passed through to the manager-hosted queue. -/
def ManagedMemoryQueue.init (α : Type) (maxsize : Int) : PyQueue α :=
  ⟨maxsize, []⟩

/-- Embeds jbmailbot.mailqueue.MailQueue.__init__. -/
def MailQueue.init (α : Type) (maxsize : Int) : PyQueue α :=
  ⟨maxsize, []⟩

/-- Embeds jbmailbot.mailqueue.ManagedMailQueue.__init__: the call is
get_manager().Queue() with no argument, so the configured maxsize is
dropped and the shared queue is unbounded. -/
def ManagedMailQueue.init (α : Type) (maxsize : Int) : PyQueue α :=
  ⟨0, []⟩

/-- Embeds MemoryQueue.get (identical in MailQueue.get and the managed
variants): the inner get runs under the given block and timeout
arguments and the Empty exception is caught and turned into None. -/
def MemoryQueue.get {α : Type} (q : PyQueue α) : Option α × PyQueue α :=
  match q.get_raw with
  | Except.error _ => (none, q)
  | Except.ok (x, q2) => (some x, q2)

/-- Capability predicates of the queue variants
(llmailbot.queue.MemoryQueue / ManagedMemoryQueue). -/
def MemoryQueue.is_thread_safe : Bool := true

/-- MemoryQueue.is_process_safe returns False. -/
def MemoryQueue.is_process_safe : Bool := false

/-- ManagedMemoryQueue.is_thread_safe returns True. -/
def ManagedMemoryQueue.is_thread_safe : Bool := true

/-- ManagedMemoryQueue.is_process_safe returns True. -/
def ManagedMemoryQueue.is_process_safe : Bool := true

/-- Embeds the interval arithmetic of TaskRunner.run_forever
(jbmailbot.runtask): until_next_call = start_time + interval - now. -/
def untilNextCall (start_time interval now : Time) : Time :=
  start_time + interval - now

/-- Sleep performed after one step of TaskRunner.run_forever: none or
zero interval is falsy in Python, so no sleep happens; otherwise the
loop sleeps until_next_call when that is positive. -/
def sleepAfterStep (start_time : Time) (interval : Option Time) (now : Time) : Time :=
  match interval with
  | none => 0
  | some i =>
      if i = 0 then 0
      else if untilNextCall start_time i now > 0 then untilNextCall start_time i now else 0

/-- Start instants of the successive steps of run_forever, given the
first start instant and the duration of each step: each iteration
records start_time, awaits the step, then sleeps per sleepAfterStep. -/
def stepStart (t0 : Time) (interval : Option Time) (dur : ℕ → Time) : ℕ → Time
  | 0 => t0
  | k + 1 =>
      let s := stepStart t0 interval dur k
      let e := s + dur k
      e + sleepAfterStep s interval e

/-- Default of the retries argument of RunBotTask.__init__. -/
def RunBotTask.defaultRetries : ℕ := 3

/-- Outcome oracle for attempt i of the reply loop of RunBotTask.run:
what self.mailbot.reply would do (raise, or return an optional reply),
abstracting the external chat-model capability. -/
abbrev ComposeOracle := ℕ → Except Unit (Option SimpleEmail)

/-- Oracle telling whether the sendq.put of attempt i would raise
(queue Full at timeout). -/
abbrev PutOracle := ℕ → Bool

/-- Attempt i of the reply loop fails when mailbot.reply raises, or
when it returns a reply and the put of that reply raises. -/
def attemptFails (compose : ComposeOracle) (putFails : PutOracle) (i : ℕ) : Bool :=
  match compose i with
  | Except.error _ => true
  | Except.ok none => false
  | Except.ok (some _) => putFails i

/-- Embeds the for loop over range(retries + 1) in RunBotTask.run,
starting at attempt index i with n attempts left: on an exception the
index is logged and the loop continues; on success the reply (when not
None) is put on the send queue and the loop breaks.  Returns the
replies enqueued on the send queue and the logged retry indices, in
order. -/
def botLoop (compose : ComposeOracle) (putFails : PutOracle) :
    ℕ → ℕ → List SimpleEmail × List ℕ
  | 0, _ => ([], [])
  | n + 1, i =>
      match compose i with
      | Except.error _ =>
          let (sends, logs) := botLoop compose putFails n (i + 1)
          (sends, i :: logs)
      | Except.ok none => ([], [])
      | Except.ok (some reply) =>
          if putFails i then
            let (sends, logs) := botLoop compose putFails n (i + 1)
            (sends, i :: logs)
          else ([reply], [])

/-- Embeds RunBotTask.run for one step: get one message from the
incoming queue with a bounded timeout (None means an empty step), then
run the retry loop.  Returns the incoming queue after the step, the
replies enqueued on the outgoing queue and the logged retry indices.
The incoming queue is read once and never written, so the message is
dropped, not requeued, when every attempt fails. -/
def RunBotTask.run (retries : ℕ) (recvq : PyQueue SimpleEmail) (compose : ComposeOracle)
    (putFails : PutOracle) : PyQueue SimpleEmail × List SimpleEmail × List ℕ :=
  match MemoryQueue.get recvq with
  | (none, q2) => (q2, [], [])
  | (some _, q2) =>
      let (sends, logs) := botLoop compose putFails (retries + 1) 0
      (q2, sends, logs)

/-- Run a sequence of checks against one global rate-limit rule,
passing the instant of each check; returns the results in order and
the final state. -/
def checkRun (r : RateLimitRule) : List Time → List RuleResult × RateLimitRule
  | [] => ([], r)
  | t :: ts =>
      ((r.increase_and_check t).1 :: (checkRun (r.increase_and_check t).2 ts).1,
        (checkRun (r.increase_and_check t).2 ts).2)

/-- Number of ALLOW results in a list of rule results. -/
def allowCount : List RuleResult → ℕ
  | [] => 0
  | res :: rest => (if res.action = SecAction.ALLOW then 1 else 0) + allowCount rest

/-- Sample sender address. -/
def userAddr : EmailAddress := ⟨"User", "user@example.com"⟩

/-- Sample bot address. -/
def botAddr : EmailAddress := ⟨"", "bot@host.com"⟩

/-- Sample fetched email. -/
def sampleEmail : SimpleEmail :=
  { addr_from := userAddr
    addr_to := [botAddr]
    subject := "hi"
    body := "hello"
    message_id := some "<1@x>"
    references := some "<0@x>" }

/-- Sample raw message wrapping sampleEmail. -/
def sampleRaw : IMAPRawMessage := ⟨sampleEmail⟩

/-- Sample email whose body opens with whitespace followed by the
configured secret key. -/
def secretEmail : SimpleEmail := { sampleEmail with body := " SECREThello" }

/-- Sample email whose subject already carries the reply marker. -/
def reHiEmail : SimpleEmail := { sampleEmail with subject := "Re: hi" }

/-- Sample jbmailbot email. -/
def jbSample : SimpleEmailJB :=
  { addr_from := "user@example.com"
    addr_to := ["bot@host.com"]
    subject := "hi"
    body := "hello"
    message_id := some "<1@x>" }

/-- Per-sender rule with window 10 and limit 1 created at instant 0. -/
def perSender0 : RateLimitPerSenderRule :=
  RateLimitPerSenderRule.init 10 1 "per-sender" 0

/-- State of perSender0 after one allowed check for sender a@x at 0. -/
def perSenderAfterA : RateLimitPerSenderRule :=
  ⟨10, 1, [("a@x", ⟨10, 1, 1, 10, "per-sender/a@x"⟩)], 10, "per-sender"⟩

/-- State left behind when the purge triggered by a check for sender
b@x at instant 25 raises: the first expired entry was deleted, the
next-purge instant was not advanced. -/
def perSenderAfterCrash : RateLimitPerSenderRule :=
  ⟨10, 1, [("b@x", ⟨10, 1, 0, 35, "per-sender/b@x"⟩)], 10, "per-sender"⟩

/-- Global rate-limit rule with window 10 and limit 1 created at 0. -/
def globalRate0 : RateLimitRule := RateLimitRule.init 10 1 "global" 0

/-- Sample reply produced by the bot. -/
def sampleReply : SimpleEmail := SimpleEmail.reply sampleEmail botAddr "Hi back"

/-- Compose oracle that raises on the first attempt and then returns
sampleReply. -/
def composeFailThenOk : ComposeOracle :=
  fun i => if i = 0 then Except.error () else Except.ok (some sampleReply)

/-- Put oracle under which no send-queue put raises. -/
def putNeverFails : PutOracle := fun _ => false

/-- The Python comparison in FetchMailTask.run is False for any apply
result. -/
theorem pyEqApplyResultAllow_false (result : Option SimpleEmail) :
    pyEqApplyResultAllow result = false := by
  cases result <;> rfl

/-- A fetch loop that returns normally enqueued nothing. -/
theorem fetchLoop_ok_nil (now : Time) :
    ∀ (msgs : List IMAPRawMessage) (rules : List SecRule)
      (out : List IMAPRawMessage × List SecRule),
      fetchLoop rules now msgs = Except.ok out → out.1 = [] := by
  intro msgs
  induction msgs with
  | nil =>
      intro rules out h
      simp only [fetchLoop] at h
      cases h
      rfl
  | cons m rest ih =>
      intro rules out h
      simp only [fetchLoop] at h
      split at h
      · cases h
      next result rules2 heq =>
        split at h
        · cases h
        next enqueued rules3 heq2 =>
          rw [pyEqApplyResultAllow_false] at h
          simp only [Bool.false_eq_true, if_false, List.nil_append] at h
          cases h
          exact ih rules2 (enqueued, rules3) heq2

/-- Claim C1 (code bug): FetchMailTask.run compares the return value of
SecurityFilter.apply, which is the possibly mutated email or None,
against the enum member Action.ALLOW; under Python equality that
comparison is always False, so no message is ever enqueued on the
incoming queue - not even one a configured filter allows, as the
concrete allow-all run shows. -/
theorem fetch_never_enqueues :
    (∀ (sec_filter : Option (List SecRule)) (msgs : List IMAPRawMessage) (now : Time),
        fetchEnqueued (FetchMailTask.run sec_filter msgs now) = []) ∧
    SecurityFilter.apply [SecRule.allowAll] sampleEmail 0 =
      Except.ok (some sampleEmail, [SecRule.allowAll]) ∧
    FetchMailTask.run (some [SecRule.allowAll]) [sampleRaw] 0 =
      Except.ok ([], some [SecRule.allowAll]) := by
  refine ⟨?_, rfl, rfl⟩
  intro sec_filter msgs now
  cases sec_filter with
  | none => rfl
  | some rules =>
      simp only [FetchMailTask.run]
      cases h : fetchLoop rules now msgs with
      | error msg => rfl
      | ok out =>
          simp only [fetchEnqueued]
          exact fetchLoop_ok_nil now msgs rules out h

/-- Claim C2 (code bug): on a body that opens with whitespace followed
by the key, SecretKeyRule.check allows the email but mutates the body
by slicing the unstripped body, leaving the tail of the key in place
(Thello) instead of the remainder after the key (hello) that the rule
docstring and the spec describe. -/
theorem secret_key_strip_bug :
    SecretKeyRule.check "SECRET" secretEmail =
      (⟨SecAction.ALLOW, none⟩, { secretEmail with body := "Thello" }) ∧
    secretEmail.body = " SECREThello" ∧
    pyStartsWith (pyLstrip secretEmail.body) "SECRET" = true ∧
    pyLstrip (pySliceFrom (pyLstrip secretEmail.body) "SECRET".length) = "hello" ∧
    "Thello" ≠ "hello" := by
  refine ⟨by decide, rfl, by decide, by decide, by decide⟩

/-- Claim C3 (code bug): RateLimitPerSenderRule._purge deletes from
self.rate_limits while iterating dict items, so the first check that
should purge an expired entry deletes that entry and then raises
RuntimeError; the remaining expired entries are kept and the next-purge
instant is not advanced, instead of the claimed full sweep. -/
theorem per_sender_purge_raises :
    perSender0.increase_and_check "a@x" 0 =
      Except.ok (⟨SecAction.ALLOW, none⟩, perSenderAfterA) ∧
    perSenderAfterA.increase_and_check "b@x" 25 =
      Except.error ("RuntimeError: dictionary changed size during iteration",
        perSenderAfterCrash) := by
  constructor
  · norm_num [perSender0, perSenderAfterA, RateLimitPerSenderRule.init,
      RateLimitPerSenderRule.increase_and_check, lookupEntry, updateEntry, purgeEntries,
      RateLimitRule.init, RateLimitRule.increase_and_check, RateLimitRule.is_expired,
      RateLimitRule.reset]
    rfl
  · norm_num [perSenderAfterA, perSenderAfterCrash,
      RateLimitPerSenderRule.increase_and_check, lookupEntry, updateEntry, purgeEntries,
      RateLimitRule.init, RateLimitRule.increase_and_check, RateLimitRule.is_expired,
      RateLimitRule.reset]
    rfl

/-- Claim C4 counterexample: with window 10 and limit 1, a check just
before the window expiry and a check just after it are both allowed,
although they fall 2 apart - inside one interval of length 10.  The
fixed-window reset therefore breaks the claimed bound of at most L
allowed checks within any interval of length W. -/
theorem rate_limit_sliding_window_cex :
    (checkRun globalRate0 [9, 11]).1 =
      [⟨SecAction.ALLOW, none⟩, ⟨SecAction.ALLOW, none⟩] ∧
    allowCount (checkRun globalRate0 [9, 11]).1 = 2 ∧
    globalRate0.limit = 1 ∧
    globalRate0.duration = 10 ∧
    (11 : Time) - 9 ≤ 10 := by
  have hg : globalRate0 = ⟨10, 1, 0, 10, "global"⟩ := by
    norm_num [globalRate0, RateLimitRule.init]
  have s1 : (⟨10, 1, 0, 10, "global"⟩ : RateLimitRule).increase_and_check 9 =
      (⟨SecAction.ALLOW, none⟩, ⟨10, 1, 1, 10, "global"⟩) := by
    norm_num [RateLimitRule.increase_and_check, RateLimitRule.is_expired, RateLimitRule.reset]
  have s2 : (⟨10, 1, 1, 10, "global"⟩ : RateLimitRule).increase_and_check 11 =
      (⟨SecAction.ALLOW, none⟩, ⟨10, 1, 1, 21, "global"⟩) := by
    norm_num [RateLimitRule.increase_and_check, RateLimitRule.is_expired, RateLimitRule.reset]
  have hres : (checkRun globalRate0 [9, 11]).1 =
      [⟨SecAction.ALLOW, none⟩, ⟨SecAction.ALLOW, none⟩] := by
    rw [hg]
    simp only [checkRun, s1, s2]
  refine ⟨hres, ?_, rfl, rfl, by norm_num⟩
  rw [hres]
  rfl

/-- Along a run of checks none of which reaches past the current
window expiry, the number of allowed checks is bounded by what is left
of the limit. -/
theorem allowCount_checkRun_le (ts : List Time) :
    ∀ r : RateLimitRule, (∀ t ∈ ts, t ≤ r.limit_expiry) →
      (allowCount (checkRun r ts).1 : ℤ) ≤ max (r.limit - r.count) 0 := by
  induction ts with
  | nil =>
      intro r _
      simp only [checkRun, allowCount, Nat.cast_zero]
      exact le_max_right _ _
  | cons t ts ih =>
      intro r hts
      have hexp : r.is_expired t = false := by
        simp only [RateLimitRule.is_expired, gt_iff_lt, decide_eq_false_iff_not, not_lt]
        exact hts t (List.mem_cons_self t ts)
      have hts2 : ∀ u ∈ ts, u ≤ r.limit_expiry := fun u hu => hts u (List.mem_cons_of_mem t hu)
      by_cases hc : r.count + 1 > r.limit
      · have hstep : r.increase_and_check t =
            (⟨SecAction.BLOCK, some ("rate limit exceeded - " ++ r.name)⟩,
              { r with count := r.count + 1 }) := by
          simp [RateLimitRule.increase_and_check, hexp, hc]
        simp only [checkRun, hstep, allowCount]
        have h2 := ih { r with count := r.count + 1 } hts2
        have h3 : max (r.limit - (r.count + 1)) 0 ≤ max (r.limit - r.count) 0 :=
          max_le_max (by omega) le_rfl
        simp only [reduceCtorEq, if_false, Nat.zero_add]
        exact le_trans h2 h3
      · have hstep : r.increase_and_check t =
            (⟨SecAction.ALLOW, none⟩, { r with count := r.count + 1 }) := by
          simp [RateLimitRule.increase_and_check, hexp, hc]
        simp only [checkRun, hstep, allowCount]
        have h2 := ih { r with count := r.count + 1 } hts2
        have hmax : max (r.limit - (r.count + 1)) 0 = r.limit - (r.count + 1) :=
          max_eq_left (by omega)
        rw [hmax] at h2
        push_cast
        calc (1 : ℤ) + (allowCount (checkRun { r with count := r.count + 1 } ts).1 : ℤ)
            ≤ r.limit - r.count := by omega
          _ ≤ max (r.limit - r.count) 0 := le_max_left _ _

/-- Claim C4 amended: each check at time t first resets the counter to
0 and the expiry to t + W when t is past the expiry, then increments
the counter, and blocks exactly when the counter exceeds L; within one
fixed window - a run of checks started at a fresh window and never
reaching past its expiry - at most L checks are allowed.  (Across a
window boundary up to 2 L checks can be allowed inside one interval of
length W, per the counterexample.) -/
theorem rate_limit_fixed_window :
    (∀ (r : RateLimitRule) (now : Time),
        r.increase_and_check now =
          (let r1 := if now > r.limit_expiry then
              { r with count := 0, limit_expiry := now + r.duration } else r
           let r2 := { r1 with count := r1.count + 1 }
           if r2.count > r2.limit then
             (⟨SecAction.BLOCK, some ("rate limit exceeded - " ++ r2.name)⟩, r2)
           else (⟨SecAction.ALLOW, none⟩, r2))) ∧
    (∀ (W : Time) (L : ℤ) (nm : String) (t0 : Time) (ts : List Time),
        0 ≤ L → (∀ t ∈ ts, t ≤ t0 + W) →
        (allowCount (checkRun (RateLimitRule.init W L nm t0) ts).1 : ℤ) ≤ L) := by
  constructor
  · intro r now
    simp only [RateLimitRule.increase_and_check, RateLimitRule.is_expired,
      RateLimitRule.reset, decide_eq_true_eq]
  · intro W L nm t0 ts hL hts
    have h := allowCount_checkRun_le ts (RateLimitRule.init W L nm t0)
      (by simpa [RateLimitRule.init] using hts)
    simpa [RateLimitRule.init, max_eq_left hL] using h

/-- Witness for rate_limit_fixed_window at window 10, limit 1 and two
in-window checks. -/
theorem rate_limit_fixed_window_witness :
    (allowCount (checkRun (RateLimitRule.init 10 1 "g" 0) [1, 2]).1 : ℤ) ≤ 1 :=
  rate_limit_fixed_window.2 10 1 "g" 0 [1, 2] (by norm_num)
    (by intro t ht; simp only [List.mem_cons, List.mem_singleton, List.not_mem_nil,
          or_false] at ht
        rcases ht with rfl | rfl <;> norm_num)

/-- Claim C5 counterexample: on a subject that already opens with the
reply marker, the llmailbot reply constructor doubles the marker
instead of keeping the subject, and the jbmailbot variant never adds
the marker at all; neither matches the claimed conditional behaviour. -/
theorem reply_subject_cex :
    reHiEmail.subject = "Re: hi" ∧
    (SimpleEmail.reply reHiEmail botAddr "x").subject = "Re: Re: hi" ∧
    "Re: Re: hi" ≠ "Re: hi" ∧
    jbSample.subject = "hi" ∧
    (SimpleEmailJB.reply jbSample "bot@host.com" "x").subject = "hi" ∧
    "hi" ≠ "Re: hi" := by
  exact ⟨rfl, rfl, by decide, rfl, rfl, by decide⟩

/-- Claim C5 amended: the reply constructor returns a new message whose
from is the given bot address, whose to is exactly the original sender,
whose in_reply_to is the original message_id and whose references is
the original references; the subject is the original subject with the
reply marker prepended unconditionally in the llmailbot variant (even
when already present), and unchanged in the jbmailbot variant. -/
theorem reply_fields :
    (∀ (e : SimpleEmail) (a : EmailAddress) (b : String),
        (SimpleEmail.reply e a b).addr_from = a ∧
        (SimpleEmail.reply e a b).addr_to = [e.addr_from] ∧
        (SimpleEmail.reply e a b).subject = "Re: " ++ e.subject ∧
        (SimpleEmail.reply e a b).body = b ∧
        (SimpleEmail.reply e a b).in_reply_to = e.message_id ∧
        (SimpleEmail.reply e a b).references = e.references) ∧
    (∀ (je : SimpleEmailJB) (a b : String),
        (SimpleEmailJB.reply je a b).addr_from = a ∧
        (SimpleEmailJB.reply je a b).addr_to = [je.addr_from] ∧
        (SimpleEmailJB.reply je a b).subject = je.subject ∧
        (SimpleEmailJB.reply je a b).body = b ∧
        (SimpleEmailJB.reply je a b).in_reply_to = je.message_id ∧
        (SimpleEmailJB.reply je a b).references = je.references) := by
  exact ⟨fun e a b => ⟨rfl, rfl, rfl, rfl, rfl, rfl⟩,
    fun je a b => ⟨rfl, rfl, rfl, rfl, rfl, rfl⟩⟩

/-- The reply loop never enqueues more than one reply. -/
theorem botLoop_sends_le_one (compose : ComposeOracle) (putFails : PutOracle) :
    ∀ (n i : ℕ), (botLoop compose putFails n i).1.length ≤ 1 := by
  intro n
  induction n with
  | zero => intro i; simp [botLoop]
  | succ n ih =>
      intro i
      simp only [botLoop]
      cases compose i with
      | error e => simpa using ih (i + 1)
      | ok o =>
          cases o with
          | none => simp
          | some reply =>
              by_cases hp : putFails i
              · simp only [hp, if_true]
                simpa using ih (i + 1)
              · simp [hp]

/-- When every attempt in budget fails, the reply loop enqueues nothing
and logs every attempt index. -/
theorem botLoop_all_fail (compose : ComposeOracle) (putFails : PutOracle) :
    ∀ (n i : ℕ), (∀ j, j < n → attemptFails compose putFails (i + j) = true) →
      botLoop compose putFails n i = ([], List.range' i n) := by
  intro n
  induction n with
  | zero => intro i _; simp [botLoop, List.range']
  | succ n ih =>
      intro i hfail
      have h0 : attemptFails compose putFails i = true := by
        have := hfail 0 (Nat.succ_pos n)
        simpa using this
      have hrest : ∀ j, j < n → attemptFails compose putFails (i + 1 + j) = true := by
        intro j hj
        have := hfail (j + 1) (by omega)
        simpa [Nat.add_assoc, Nat.add_comm 1 j] using this
      have hihres := ih (i + 1) hrest
      simp only [botLoop]
      cases hcomp : compose i with
      | error e =>
          rw [hihres]
          simp [List.range']
      | ok o =>
          cases o with
          | none => simp [attemptFails, hcomp] at h0
          | some reply =>
              have hp : putFails i = true := by simpa [attemptFails, hcomp] using h0
              rw [hp]
              simp only [if_true]
              rw [hihres]
              simp [List.range']

/-- When the attempts before index k fail, attempt k composes a reply
and its put succeeds, the reply loop enqueues exactly that reply, logs
exactly the failed indices and stops. -/
theorem botLoop_first_success (compose : ComposeOracle) (putFails : PutOracle)
    (reply : SimpleEmail) :
    ∀ (k n i : ℕ), k < n → (∀ j, j < k → attemptFails compose putFails (i + j) = true) →
      compose (i + k) = Except.ok (some reply) → putFails (i + k) = false →
      botLoop compose putFails n i = ([reply], List.range' i k) := by
  intro k
  induction k with
  | zero =>
      intro n i hn _ hcomp hput
      cases n with
      | zero => omega
      | succ n =>
          simp only [botLoop]
          rw [show i + 0 = i from rfl] at hcomp hput
          rw [hcomp, hput]
          simp [List.range']
  | succ k ih =>
      intro n i hn hfail hcomp hput
      cases n with
      | zero => omega
      | succ n =>
          have h0 : attemptFails compose putFails i = true := by
            have := hfail 0 (Nat.succ_pos k)
            simpa using this
          have hrest : ∀ j, j < k → attemptFails compose putFails (i + 1 + j) = true := by
            intro j hj
            have := hfail (j + 1) (by omega)
            simpa [Nat.add_assoc, Nat.add_comm 1 j] using this
          have hcomp2 : compose (i + 1 + k) = Except.ok (some reply) := by
            rw [show i + 1 + k = i + (k + 1) from by omega]
            exact hcomp
          have hput2 : putFails (i + 1 + k) = false := by
            rw [show i + 1 + k = i + (k + 1) from by omega]
            exact hput
          have hihres := ih n (i + 1) (by omega) hrest hcomp2 hput2
          simp only [botLoop]
          cases hc : compose i with
          | error e =>
              rw [hihres]
              simp [List.range']
          | ok o =>
              cases o with
              | none => simp [attemptFails, hc] at h0
              | some rep2 =>
                  have hp : putFails i = true := by simpa [attemptFails, hc] using h0
                  rw [hp]
                  simp only [if_true]
                  rw [hihres]
                  simp [List.range']

/-- Claim C6: for a dequeued message, the reply loop of RunBotTask.run
makes at most retries + 1 attempts (default retries = 3), logs each
raising attempt with its retry index, never requeues the message to
the incoming queue, enqueues at most one reply, drops the message
after the last retry when every attempt fails, and on the first
successful attempt enqueues exactly that one reply and stops. -/
theorem run_bot_retry_discipline (retries : ℕ) (cap : ℤ) (m : SimpleEmail)
    (rest : List SimpleEmail) (compose : ComposeOracle) (putFails : PutOracle) :
    RunBotTask.defaultRetries = 3 ∧
    (RunBotTask.run retries ⟨cap, m :: rest⟩ compose putFails).1.items = rest ∧
    (RunBotTask.run retries ⟨cap, m :: rest⟩ compose putFails).2.1.length ≤ 1 ∧
    ((∀ i, i ≤ retries → attemptFails compose putFails i = true) →
        (RunBotTask.run retries ⟨cap, m :: rest⟩ compose putFails).2 =
          ([], List.range (retries + 1))) ∧
    (∀ (k : ℕ) (reply : SimpleEmail), k ≤ retries →
        (∀ j, j < k → attemptFails compose putFails j = true) →
        compose k = Except.ok (some reply) → putFails k = false →
        (RunBotTask.run retries ⟨cap, m :: rest⟩ compose putFails).2 =
          ([reply], List.range k)) := by
  have hrun : RunBotTask.run retries ⟨cap, m :: rest⟩ compose putFails =
      (⟨cap, rest⟩, botLoop compose putFails (retries + 1) 0) := rfl
  refine ⟨rfl, by rw [hrun], ?_, ?_, ?_⟩
  · rw [hrun]
    exact botLoop_sends_le_one compose putFails (retries + 1) 0
  · intro hall
    rw [hrun]
    have h := botLoop_all_fail compose putFails (retries + 1) 0
      (by intro j hj; simpa using hall j (by omega))
    rw [List.range_eq_range']
    simpa using h
  · intro k reply hk hfail hcomp hput
    rw [hrun]
    have h := botLoop_first_success compose putFails reply k (retries + 1) 0
      (by omega) (by intro j hj; simpa using hfail j hj) (by simpa using hcomp)
      (by simpa using hput)
    rw [List.range_eq_range']
    simpa using h

/-- Witness for run_bot_retry_discipline: the first attempt raises, the
second composes and its put succeeds, so exactly one reply goes out and
index 0 is logged. -/
theorem run_bot_retry_discipline_witness :
    (RunBotTask.run 3 ⟨0, [sampleEmail]⟩ composeFailThenOk putNeverFails).2 =
      ([sampleReply], List.range 1) :=
  (run_bot_retry_discipline 3 0 sampleEmail [] composeFailThenOk putNeverFails).2.2.2.2 1
    sampleReply (by norm_num)
    (by intro j hj
        have hj0 : j = 0 := by omega
        subst hj0
        rfl)
    rfl rfl

/-- The inter-step sleep of run_forever is never negative. -/
theorem sleepAfterStep_nonneg (s : Time) (itv : Option Time) (now : Time) :
    0 ≤ sleepAfterStep s itv now := by
  cases itv with
  | none => exact le_refl 0
  | some i =>
      simp only [sleepAfterStep]
      by_cases hi : i = 0
      · simp [hi]
      · rw [if_neg hi]
        by_cases hpos : untilNextCall s i now > 0
        · rw [if_pos hpos]; linarith
        · rw [if_neg hpos]

/-- Claim C7: when a step ends at or after its recorded start, the
sleep of run_forever equals max(0, start + interval - now); the next
step never starts before the previous one ends, whatever the interval;
and a step at least as long as the interval is followed by no sleep, so
the next step starts immediately. -/
theorem runner_interval_schedule (i t0 : Time) (dur : ℕ → Time) :
    (∀ s now : Time, s ≤ now → sleepAfterStep s (some i) now = max 0 (s + i - now)) ∧
    (∀ (itv : Option Time) (k : ℕ),
        stepStart t0 itv dur k + dur k ≤ stepStart t0 itv dur (k + 1)) ∧
    (∀ k : ℕ, i ≤ dur k →
        stepStart t0 (some i) dur (k + 1) = stepStart t0 (some i) dur k + dur k) := by
  refine ⟨?_, ?_, ?_⟩
  · intro s now h
    simp only [sleepAfterStep]
    by_cases hi : i = 0
    · subst hi
      rw [if_pos rfl]
      have hle : s + 0 - now ≤ 0 := by linarith
      rw [max_eq_left hle]
    · rw [if_neg hi]
      simp only [untilNextCall]
      by_cases hpos : s + i - now > 0
      · rw [if_pos hpos, max_eq_right (le_of_lt hpos)]
      · push_neg at hpos
        rw [if_neg (not_lt.mpr hpos), max_eq_left hpos]
  · intro itv k
    simp only [stepStart]
    have := sleepAfterStep_nonneg (stepStart t0 itv dur k) itv (stepStart t0 itv dur k + dur k)
    linarith
  · intro k hk
    simp only [stepStart]
    have hzero : sleepAfterStep (stepStart t0 (some i) dur k) (some i)
        (stepStart t0 (some i) dur k + dur k) = 0 := by
      simp only [sleepAfterStep]
      by_cases hi : i = 0
      · simp [hi]
      · rw [if_neg hi, if_neg]
        simp only [untilNextCall, gt_iff_lt, not_lt]
        linarith
    rw [hzero, add_zero]

/-- Witness for runner_interval_schedule at a concrete step start,
interval and step end. -/
theorem runner_interval_schedule_witness :
    sleepAfterStep 0 (some 2) 1 = max 0 (0 + 2 - 1) :=
  (runner_interval_schedule 2 0 (fun _ => 0)).1 0 1 (by norm_num)

/-- Claim C8 (code bug): jbmailbot ManagedMailQueue.__init__ builds the
manager queue with no argument, so the configured capacity is dropped
and the cross-process queue is unbounded - a second put into a queue
configured with capacity 1 succeeds, where the in-process MailQueue
refuses it.  The later llmailbot pair passes the capacity through in
both variants. -/
theorem managed_mail_queue_capacity_bug :
    (ManagedMailQueue.init SimpleEmail 1).maxsize = 0 ∧
    (MailQueue.init SimpleEmail 1).maxsize = 1 ∧
    PyQueue.put_raw (ManagedMailQueue.init SimpleEmail 1) sampleEmail =
      Except.ok ⟨0, [sampleEmail]⟩ ∧
    PyQueue.put_raw (⟨0, [sampleEmail]⟩ : PyQueue SimpleEmail) sampleReply =
      Except.ok ⟨0, [sampleEmail, sampleReply]⟩ ∧
    PyQueue.put_raw (MailQueue.init SimpleEmail 1) sampleEmail =
      Except.ok ⟨1, [sampleEmail]⟩ ∧
    PyQueue.put_raw (⟨1, [sampleEmail]⟩ : PyQueue SimpleEmail) sampleReply =
      Except.error () ∧
    (∀ c : ℤ, (MemoryQueue.init SimpleEmail c).maxsize = c ∧
        (ManagedMemoryQueue.init SimpleEmail c).maxsize = c ∧
        (MailQueue.init SimpleEmail c).maxsize = c) := by
  exact ⟨rfl, rfl, rfl, rfl, rfl, rfl, fun c => ⟨rfl, rfl, rfl⟩⟩

/-- Claim C9: the queue get wrapper catches the Empty exception raised
by the inner queue at timeout and returns None, leaving the queue as
it was; it returns None exactly when the queue is empty, and the Empty
exception is the only failure of the inner get. -/
theorem memory_queue_get_empty_returns_none :
    (∀ c : ℤ, MemoryQueue.get (⟨c, []⟩ : PyQueue SimpleEmail) = (none, ⟨c, []⟩)) ∧
    (∀ q : PyQueue SimpleEmail,
        ((MemoryQueue.get q).1 = none ↔ q.items = []) ∧
        (q.get_raw = Except.error () ↔ q.items = [])) := by
  constructor
  · intro c
    rfl
  · intro q
    obtain ⟨c, items⟩ := q
    cases items with
    | nil => simp [MemoryQueue.get, PyQueue.get_raw]
    | cons x rest => simp [MemoryQueue.get, PyQueue.get_raw]

/-- Claim C10: the outgoing RFC-5322 message built by to_email_message
carries exactly the From, To, Subject, Date and In-Reply-To headers, in
that order, for every email - in particular no References header is
ever set, whatever the references field holds. -/
theorem to_email_message_never_sets_references :
    ∀ (e : SimpleEmail) (now : String),
      (e.to_email_message now).headers.map Prod.fst =
        ["From", "To", "Subject", "Date", "In-Reply-To"] ∧
      "References" ∉ (e.to_email_message now).headers.map Prod.fst := by
  intro e now
  refine ⟨rfl, ?_⟩
  rw [show (e.to_email_message now).headers.map Prod.fst =
      ["From", "To", "Subject", "Date", "In-Reply-To"] from rfl]
  decide
